import Mathlib

/-!
Verification development for the i3bargo status-line generator
(`src/main.go`).  The concurrent program is embedded shallowly:

* `Block` and `marshalBlock` model the Go struct `Block` and
  `encoding/json.Marshal` applied to it (field order as declared,
  `omitempty` semantics, Go's JSON string escaping including its HTML
  escapes).
* `Update`, `applyUpdate`, `renderUnit`, `renderFrame` and
  `aggregatorRun` model the body of `main`: the snapshot-store update
  performed for each received `Update` (including the substitution of
  the fixed error unit) and the full re-render emitted after each one.
* `memory`, `volume`, `temperature`, `battery`, `uptime`, `datetime`
  model the sensor bodies on their already-acquired raw data
  (file contents, command output lines, library readings); Go float64
  arithmetic is modelled over `ℚ`, with the decimal roundings the code
  performs (`%f` verbs, `time.ParseDuration` round-trip) made explicit.
-/

/- Batteries seals the rational-number operations; re-opening them lets
concrete sensor computations be settled by kernel evaluation. -/
attribute [local semireducible] Rat.add Rat.sub Rat.mul Rat.inv

/-- Go `int64` truncating division (`/` in Go rounds toward zero). -/
def goIntDiv (a b : Int) : Int :=
  Int.sign a * Int.sign b * ((a.natAbs / b.natAbs : Nat) : Int)

/-- Floor of a rational, computed from numerator and denominator. -/
def floorQ (q : ℚ) : Int :=
  if 0 ≤ q.num then ((q.num.natAbs / q.den : Nat) : Int)
  else -(((q.num.natAbs + q.den - 1) / q.den : Nat) : Int)

/-- Truncation toward zero, Go's `int(x)` conversion for floats. -/
def truncQ (q : ℚ) : Int := goIntDiv q.num q.den

/-- Round to nearest integer, ties to even: the rounding Go's `fmt`
`%f` verbs perform when printing a float to a fixed number of
decimals. -/
def roundHalfEven (q : ℚ) : Int :=
  let f := floorQ q
  let frac : ℚ := q - (f : ℚ)
  if frac < 1/2 then f
  else if 1/2 < frac then f + 1
  else if f % 2 = 0 then f else f + 1

/-- Left-pad a numeral with zeros to width `n`. -/
def zeroPad (n : Nat) (v : Nat) : String :=
  let s := toString v
  String.mk (List.replicate (n - s.length) '0') ++ s

/-- Go `fmt.Sprintf` with verb `%.<prec>f`: fixed-point decimal
rendering of a (finite) float, here over `ℚ`. -/
def fmtF (prec : Nat) (q : ℚ) : String :=
  let scaled := roundHalfEven (q * ((10:ℚ) ^ prec))
  let a := scaled.natAbs
  let ip := a / 10 ^ prec
  let fp := a % 10 ^ prec
  (if scaled < 0 then "-" else "") ++ toString ip ++
    (if prec = 0 then "" else "." ++ zeroPad prec fp)

/-- One lowercase hex digit. -/
def hexDig (n : Nat) : Char :=
  if n < 10 then Char.ofNat (48 + n) else Char.ofNat (87 + n)

/-- Escape of a single character in a Go `encoding/json` string
(default escaper: quotes, backslash, control characters, and the HTML
characters and separators it always escapes). -/
def escChar (c : Char) : String :=
  if c = '"' then "\\\""
  else if c = '\\' then "\\\\"
  else if c = '\n' then "\\n"
  else if c = '\r' then "\\r"
  else if c = '\t' then "\\t"
  else if c = '<' then "\\u003c"
  else if c = '>' then "\\u003e"
  else if c = '&' then "\\u0026"
  else if c.toNat < 32 then
    "\\u00" ++ String.mk [hexDig (c.toNat / 16), hexDig (c.toNat % 16)]
  else if c.toNat = 8232 then "\\u2028"
  else if c.toNat = 8233 then "\\u2029"
  else String.singleton c

/-- Go `encoding/json` escaping of a whole string. -/
def escapeString (s : String) : String := String.join (s.data.map escChar)

/-- A JSON string literal, quoted and escaped. -/
def quoteJSON (s : String) : String := "\"" ++ escapeString s ++ "\""

/-- The Go struct `Block` of `src/main.go` (the container for one
displayed segment), with the zero values Go gives omitted fields. -/
structure Block where
  fullText : String
  shortText : String := ""
  color : String := ""
  background : String := ""
  border : String := ""
  minWidth : Int := 0
  align : String := ""
  urgent : Bool := false
  name : String := ""
  instanceName : String := ""
  separator : Bool := false
  separatorBlockWidth : Int := 0

/-- `encoding/json.Marshal` on `Block`: fields in declaration order,
each tagged `omitempty` except `full_text`, so a field is emitted only
when it is not its zero value. -/
def marshalBlock (b : Block) : String :=
  "\x7b\"full_text\":" ++ quoteJSON b.fullText
  ++ (if b.shortText = "" then "" else ",\"short_text\":" ++ quoteJSON b.shortText)
  ++ (if b.color = "" then "" else ",\"color\":" ++ quoteJSON b.color)
  ++ (if b.background = "" then "" else ",\"background\":" ++ quoteJSON b.background)
  ++ (if b.border = "" then "" else ",\"border\":" ++ quoteJSON b.border)
  ++ (if b.minWidth = 0 then "" else ",\"min_width\":" ++ toString b.minWidth)
  ++ (if b.align = "" then "" else ",\"align\":" ++ quoteJSON b.align)
  ++ (if b.urgent then ",\"urgent\":true" else "")
  ++ (if b.name = "" then "" else ",\"name\":" ++ quoteJSON b.name)
  ++ (if b.instanceName = "" then "" else ",\"instance\":" ++ quoteJSON b.instanceName)
  ++ (if b.separator then ",\"separator\":true" else "")
  ++ (if b.separatorBlockWidth = 0 then ""
      else ",\"separator_block_width\":" ++ toString b.separatorBlockWidth)
  ++ "\x7d"

/-- Marshal of the common sensor block: only `FullText`,
`Separator: true`, `SeparatorBlockWidth: 20` set, as every sensor
in `src/main.go` builds it. -/
def simpleBlockJSON (ft : String) : String :=
  marshalBlock { fullText := ft, separator := true, separatorBlockWidth := 20 }

/-- Glyphs from the repository's `fontawesome` package (outside
`src/`; icon identity is irrelevant to every claim, only that each is
some fixed string). -/
def Microchip : String := ""

def VolumeUp : String := ""

def ThermometerFull : String := ""

def BatteryFull : String := ""

def ArrowCircleUp : String := ""

/-! ### Aggregator (`main`, src/main.go lines 45-96) -/

/-- The `Update` struct: an event sent by a sensor goroutine.
`content` is the `json.RawMessage` (empty string for Go `nil`), and
`error` records whether the `Error` field was non-nil. -/
structure Update where
  place : Nat
  content : String
  error : Bool

/-- The six registered updaters of `main`, with the polling interval
(seconds) each one sleeps between cycles. Slot indices are their
positions in this list. -/
def updaters : List (String × Nat) :=
  [("memory", 1), ("volume", 1), ("temperature", 5),
   ("battery", 1), ("uptime", 10), ("datetime", 1)]

/-- Number of registered sensors (`len(updaters)`). -/
def numSensors : Nat := updaters.length

/-- The raw JSON the aggregator substitutes for a slot whose update
carried a non-nil error (src/main.go line 78). -/
def errorUnit : String :=
  "\x7b\"full_text\":\" error\",\"separator\":true,\"separator_block_width\":20\x7d"

/-- The canonical empty unit printed for a slot whose stored message is
still empty (src/main.go line 84). -/
def emptyUnit : String := "\x7b\"full_text\":\"\"\x7d"

/-- The snapshot store as created by `make([]json.RawMessage, n)`:
`n` empty messages. -/
def initState (n : Nat) : List String := List.replicate n ""

/-- Effect of one received update on the snapshot store:
`state[update.Place] = update.Content`, overwritten with the fixed
error unit when the update carried an error. -/
def applyUpdate (state : List String) (u : Update) : List String :=
  state.set u.place (if u.error then errorUnit else u.content)

/-- Rendering of one slot: an empty message prints as the canonical
empty unit, anything else prints as stored. -/
def renderUnit (s : String) : String := if s = "" then emptyUnit else s

/-- One rendered frame: every slot of the snapshot store, in slot
order. -/
def renderFrame (state : List String) : List String := state.map renderUnit

/-- The aggregator receive loop: for each update in arrival order,
mutate the snapshot store and emit one full frame. -/
def aggregatorRun (state : List String) : List Update → List (List String)
  | [] => []
  | u :: us =>
    let st := applyUpdate state u
    renderFrame st :: aggregatorRun st us

/-- Capacity of the inbound channel: `make(chan Update)` on
src/main.go line 53 creates an unbuffered channel. -/
def inboundChanCap : Nat := 0

/-- Go channel-send semantics: a send proceeds without waiting exactly
when a receiver is already waiting at the channel or the buffer has
free space; otherwise the sender blocks. -/
def goChanSendProceeds (cap buffered : Nat) (receiverWaiting : Bool) : Bool :=
  receiverWaiting || decide (buffered < cap)

/-! ### Memory sensor (`memory`, src/main.go lines 323-348)
modelled on the three floats `Fscanf` extracts from the
`MemTotal`/`MemFree`/`MemAvailable` lines of the collaborator. -/

/-- The memory sensor's output for parsed values `total`, `free`,
`available` (kilobytes): available mebi-kilobytes, i.e. gibibytes,
to two decimals. -/
def memory (_total _free available : ℚ) : String :=
  simpleBlockJSON (Microchip ++ " " ++ fmtF 2 (available / (1024 * 1024)) ++ "G")

/-! ### Temperature sensor (`temperature`, src/main.go lines 224-243) -/

/-- The temperature sensor's output for the parsed integer millidegree
reading. -/
def temperature (celsius : Int) : String :=
  simpleBlockJSON (ThermometerFull ++ " " ++ toString (goIntDiv celsius 1000) ++ "°C")

/-! ### Uptime sensor (`uptime`, src/main.go lines 186-208) -/

/-- `time.Duration.String` for a nonnegative whole number of seconds
(the only durations `uptime` builds: `time.Duration(uptimeFloat) *
time.Second` truncates the float to whole seconds). -/
def goDurStringSecs (n : Nat) : String :=
  if n = 0 then "0s"
  else if n < 60 then toString n ++ "s"
  else if n < 3600 then toString (n / 60) ++ "m" ++ toString (n % 60) ++ "s"
  else toString (n / 3600) ++ "h" ++ toString (n % 3600 / 60) ++ "m" ++
    toString (n % 60) ++ "s"

/-- The uptime sensor's output for the parsed (nonnegative) float of
seconds since boot. -/
def uptime (uptimeFloat : ℚ) : String :=
  simpleBlockJSON (ArrowCircleUp ++ " " ++ goDurStringSecs (truncQ uptimeFloat).toNat)

/-! ### Datetime sensor (`datetime`, src/main.go lines 162-170) -/

/-- The datetime sensor's output: the current local time under the Go
layout `2006-01-02 15:04:05` (zero-padded components). -/
def datetime (y mo d h mi s : Nat) : String :=
  simpleBlockJSON (zeroPad 4 y ++ "-" ++ zeroPad 2 mo ++ "-" ++ zeroPad 2 d ++
    " " ++ zeroPad 2 h ++ ":" ++ zeroPad 2 mi ++ ":" ++ zeroPad 2 s)

/-! ### Battery sensor (`battery`, src/main.go lines 112-146) -/

/-- The value `time.ParseDuration` reconstructs from
`fmt.Sprintf("%fh", x)`: `x` printed to six decimals, hence rounded to
a whole number of micro-hours, reread as a duration in hours. -/
def battDur (x : ℚ) : ℚ := (roundHalfEven (x * 1000000) : ℚ) / 1000000

/-- The battery sensor's output for readings `c` (current charge), `f`
(full charge) and `r` (charge rate).  `none` models the error return
when `time.ParseDuration` fails (zero charge rate prints as a
non-numeric float, an astronomic one overflows `int64` nanoseconds);
the percentage is `%.0f` of `c/f*100`, and when not full the duration
is printed as whole hours if above one hour, else whole minutes. -/
def battery (c f r : ℚ) : Option String :=
  let head := BatteryFull ++ " " ++ fmtF 0 (c / f * 100) ++ "%"
  if c = f then some (simpleBlockJSON head)
  else if r = 0 then none
  else
    let k := roundHalfEven (c / r * 1000000)
    if 2 ^ 63 ≤ (k * 3600000).natAbs then none
    else
      let d : ℚ := (k : ℚ) / 1000000
      let tail := if 1 < d then toString (truncQ d) ++ "h"
                  else toString (truncQ (d * 60)) ++ "m"
      some (simpleBlockJSON (head ++ " - " ++ tail))

/-! ### Volume sensor (`volume`, src/main.go lines 259-307)
modelled on the lines of the mixer command's output.  The regular
expression of line 259 matches a literal bracket, one to three digits
(greedy), a percent sign and bracket, one whitespace character, and a
bracketed `on`/`off` flag. -/

/-- The digit class of the pattern's `\d` (code points 48-57). -/
def isDigitChar (c : Char) : Bool := 48 ≤ c.toNat && c.toNat ≤ 57

/-- The whitespace class of the pattern's `\s`. -/
def isSpaceRE (c : Char) : Bool :=
  c = ' ' || c = '\t' || c = '\n' || c = '\x0c' || c = '\r'

/-- Attempt to finish a match after the captured digits `ds`: the
remaining input must continue `%] [on]` or `%] [off]` (any single
whitespace between the bracket pairs). -/
def volRest (ds cs : List Char) : Option (String × String) :=
  if ds.isEmpty then none else
  match cs with
  | '%' :: ']' :: c :: '[' :: rest =>
    if isSpaceRE c then
      match rest with
      | 'o' :: 'n' :: ']' :: _ => some (String.mk ds, "on")
      | 'o' :: 'f' :: 'f' :: ']' :: _ => some (String.mk ds, "off")
      | _ => none
    else none
  | _ => none

/-- Attempt to match the pattern at the current position: an opening
bracket, then the greedy one-to-three digit capture with
backtracking. -/
def volMatchAt (cs : List Char) : Option (String × String) :=
  match cs with
  | '[' :: rest =>
    let ds := (rest.takeWhile isDigitChar).take 3
    match volRest ds (rest.drop ds.length) with
    | some r => some r
    | none =>
      let ds2 := ds.dropLast
      match volRest ds2 (rest.drop ds2.length) with
      | some r => some r
      | none =>
        let ds1 := ds2.dropLast
        match volRest ds1 (rest.drop ds1.length) with
        | some r => some r
        | none => none
  | _ => none

/-- Leftmost match of the pattern in one line
(`FindStringSubmatch`): the two captured groups. -/
def volFind : List Char → Option (String × String)
  | [] => none
  | c :: rest =>
    match volMatchAt (c :: rest) with
    | some r => some r
    | none => volFind rest

/-- First matching line of the command output (the scanner loop with
its `break`). -/
def volFirstMatch : List String → Option (String × String)
  | [] => none
  | l :: ls =>
    match volFind l.data with
    | some r => some r
    | none => volFirstMatch ls

/-- Decimal digit accumulation for `strconv.ParseInt`. -/
def decVal : List Char → Nat → Option Nat
  | [], acc => some acc
  | c :: cs, acc =>
    if isDigitChar c then decVal cs (acc * 10 + (c.toNat - 48)) else none

/-- `strconv.ParseInt(s, 10, 64)`: optional sign, at least one digit,
all digits, value within `int64`. -/
def parseInt64 (s : String) : Option Int :=
  match s.data with
  | [] => none
  | c :: cs =>
    let p := if c = '+' then (false, cs)
             else if c = '-' then (true, cs)
             else (false, c :: cs)
    if p.2.isEmpty then none
    else
      match decVal p.2 0 with
      | none => none
      | some n =>
        if p.1 then (if n ≤ 2 ^ 63 then some (-(n : Int)) else none)
        else (if n ≤ 2 ^ 63 - 1 then some ((n : Int)) else none)

/-- The volume sensor's output for the mixer command's output lines:
error (`none`) when no line matches (the empty capture fails
`ParseInt`); otherwise `<pct>%`, replaced by `off` when the mute flag
captured `off`. -/
def volume (lines : List String) : Option String :=
  let vm := volFirstMatch lines
  let volText := (vm.map Prod.fst).getD ("")
  let muteText := (vm.map Prod.snd).getD ("")
  match parseInt64 volText with
  | none => none
  | some vol =>
    let muted : Bool := muteText == "off"
    let fulltext := if muted then "off" else toString vol ++ "%"
    some (simpleBlockJSON (VolumeUp ++ " " ++ fulltext))

/-- The common shape of every non-empty unit the program ever prints:
a `full_text` field followed immediately by `"separator":true` and
`"separator_block_width":20`. -/
def sepUnitShape (s : String) : Prop :=
  ∃ t, s = "\x7b\"full_text\":\"" ++ t ++
    "\",\"separator\":true,\"separator_block_width\":20\x7d"

/-- The successful outputs a sensor can hand to the aggregator. -/
def IsSensorOutput (s : String) : Prop :=
  (∃ t f a, s = memory t f a) ∨
  (∃ ls, volume ls = some s) ∨
  (∃ c, s = temperature c) ∨
  (∃ c f r, battery c f r = some s) ∨
  (∃ x, s = uptime x) ∨
  (∃ y mo d h mi sec, s = datetime y mo d h mi sec)

example : simpleBlockJSON (Microchip ++ " 2.00G") =
    "\x7b\"full_text\":\" 2.00G\",\"separator\":true,\"separator_block_width\":20\x7d" := by
  decide

example : fmtF 2 ((2097152 : ℚ) / (1024 * 1024)) = "2.00" := by decide

example : fmtF 0 ((1 : ℚ) / 2 * 100) = "50" := by decide

example : fmtF 0 ((5 : ℚ) / 2) = "2" := by decide

example : fmtF 0 ((7 : ℚ) / 2) = "4" := by decide

example : truncQ ((-7 : ℚ) / 2) = -3 := by decide

example : floorQ ((-7 : ℚ) / 2) = -4 := by decide

example : memory 8000000 1000000 2097152 =
    simpleBlockJSON (Microchip ++ " 2.00G") := by decide

example : temperature 45678 =
    simpleBlockJSON (ThermometerFull ++ " 45°C") := by decide

example : goDurStringSecs 3661 = "1h1m1s" := by decide

example : datetime 2024 1 1 0 0 0 =
    "\x7b\"full_text\":\"2024-01-01 00:00:00\",\"separator\":true,\"separator_block_width\":20\x7d" := by
  decide

example : battery 1 2 1 =
    some (simpleBlockJSON (BatteryFull ++ " 50% - 60m")) := by decide

example : battery 3 2 1 =
    some (simpleBlockJSON (BatteryFull ++ " 150% - 3h")) := by decide

example : battery 2 2 0 =
    some (simpleBlockJSON (BatteryFull ++ " 100%")) := by decide

example : volume ["Simple mixer control Master,0",
    "  Mono: Playback 26027 [75%] [off]"] =
    some (simpleBlockJSON (VolumeUp ++ " off")) := by decide

example : volume ["  Mono: Playback 26027 [75%] [-17.25dB] [off]"] = none := by
  decide

example : volume ["  Mono: Playback 26027 [75%] [on]"] =
    some (simpleBlockJSON (VolumeUp ++ " 75%")) := by decide

example : volume ["no match here"] = none := by decide

example : volFind ("[1234%] [on]").data = none := by decide

example : volFind ("x[007%]\t[on]]").data = some ("007", "on") := by decide

example : parseInt64 ("007") = some 7 := by decide

example : aggregatorRun (initState 2)
    [⟨0, "A", false⟩, ⟨1, "B", true⟩] =
    [["A", emptyUnit], ["A", errorUnit]] := by decide

/-! ### Helper lemmas about the aggregator loop -/

theorem aggregatorRun_mem_length : ∀ (us : List Update) (st f : List String),
    f ∈ aggregatorRun st us → f.length = st.length := by
  intro us
  induction us with
  | nil => intro st f hf; simp [aggregatorRun] at hf
  | cons u us ih =>
    intro st f hf
    simp only [aggregatorRun, List.mem_cons] at hf
    rcases hf with rfl | hf
    · simp [renderFrame, applyUpdate]
    · have h := ih (applyUpdate st u) f hf
      simpa [applyUpdate] using h

theorem aggregatorRun_length : ∀ (us : List Update) (st : List String),
    (aggregatorRun st us).length = us.length := by
  intro us
  induction us with
  | nil => intro st; simp [aggregatorRun]
  | cons u us ih => intro st; simp [aggregatorRun, ih]

theorem renderFrame_set_ne (st : List String) (p i : Nat) (a : String) (h : p ≠ i) :
    (renderFrame (st.set p a))[i]? = (renderFrame st)[i]? := by
  simp only [renderFrame, List.getElem?_map]
  rw [List.getElem?_set_ne h]

theorem aggregatorRun_getElem? : ∀ (us : List Update) (st : List String) (i : Nat),
    i < us.length →
    (aggregatorRun st us)[i]? =
      some (renderFrame (List.foldl applyUpdate st (us.take (i + 1)))) := by
  intro us
  induction us with
  | nil => intro st i h; simp at h
  | cons u us ih =>
    intro st i h
    cases i with
    | zero => simp [aggregatorRun]
    | succ i =>
      have h' : i < us.length := by simpa using h
      simp [aggregatorRun, ih (applyUpdate st u) i h']

theorem slot_stays_empty : ∀ (us : List Update) (st : List String) (k : Nat),
    st[k]? = some "" → (∀ u ∈ us, u.place ≠ k) →
    ∀ f ∈ aggregatorRun st us, f[k]? = some emptyUnit := by
  intro us
  induction us with
  | nil => intro st k hk hs f hf; simp [aggregatorRun] at hf
  | cons u us ih =>
    intro st k hk hs f hf
    have hup : (applyUpdate st u)[k]? = some "" := by
      simp only [applyUpdate]
      rw [List.getElem?_set_ne (hs u (by simp))]
      exact hk
    simp only [aggregatorRun, List.mem_cons] at hf
    rcases hf with rfl | hf
    · simp only [renderFrame, List.getElem?_map, hup, Option.map_some]
      simp [renderUnit]
    · exact ih (applyUpdate st u) k hup (fun v hv => hs v (by simp [hv])) f hf

/-! ### Claim theorems -/

/-- C1: for every sequence of reports from the registered sensors and
at every point of the run, the rendered frame has exactly `numSensors`
(= 6) elements, one per slot in fixed order, none omitted or added. -/
theorem frames_always_numSensors_long (updates : List Update)
    (_hreg : ∀ u ∈ updates, u.place < numSensors) :
    ∀ f ∈ aggregatorRun (initState numSensors) updates, f.length = numSensors := by
  intro f hf
  have h := aggregatorRun_mem_length updates (initState numSensors) f hf
  simpa [initState] using h

/-- Witness for C1 at a concrete one-report run. -/
theorem frames_always_numSensors_long_witness :
    (renderFrame (applyUpdate (initState numSensors) ⟨2, "x", false⟩)).length =
      numSensors :=
  frames_always_numSensors_long [⟨2, "x", false⟩] (by decide) _ (by decide)

/-- C2: processing a report for slot `u.place` leaves every element of
the next rendered frame at any other index unchanged from the previous
frame. -/
theorem report_preserves_other_slots (st : List String) (u : Update) (i : Nat)
    (hne : i ≠ u.place) :
    (renderFrame (applyUpdate st u))[i]? = (renderFrame st)[i]? := by
  simp only [applyUpdate]
  exact renderFrame_set_ne st u.place i _ (Ne.symm hne)

/-- Witness for C2 at a concrete store and report. -/
theorem report_preserves_other_slots_witness :
    (renderFrame (applyUpdate ["a", "b"] ⟨0, "c", false⟩))[1]? =
      (renderFrame ["a", "b"])[1]? :=
  report_preserves_other_slots ["a", "b"] ⟨0, "c", false⟩ 1 (by decide)

/-- C3: a report for slot `k` carrying an error puts the fixed error
unit (visibly distinct from the canonical empty unit) at slot `k` of
the next frame, leaves every other slot unchanged, and processing
continues: the aggregator still renders one frame for this and for
every later report. -/
theorem error_report_shows_error_unit (st : List String) (k : Nat) (c : String)
    (us : List Update) (hk : k < st.length) :
    (renderFrame (applyUpdate st ⟨k, c, true⟩))[k]? = some errorUnit ∧
    errorUnit ≠ emptyUnit ∧
    (∀ i, i ≠ k → (renderFrame (applyUpdate st ⟨k, c, true⟩))[i]? =
      (renderFrame st)[i]?) ∧
    (aggregatorRun st (⟨k, c, true⟩ :: us)).length = us.length + 1 := by
  refine ⟨?_, by decide, ?_, ?_⟩
  · simp only [renderFrame, List.getElem?_map, applyUpdate]
    rw [List.getElem?_set_self (by simpa using hk)]
    simp [renderUnit, errorUnit]
  · intro i hi
    simp only [applyUpdate]
    exact renderFrame_set_ne st k i _ (Ne.symm hi)
  · exact aggregatorRun_length (⟨k, c, true⟩ :: us) st

/-- Witness for C3 at a concrete store, slot and error report. -/
theorem error_report_shows_error_unit_witness :
    (renderFrame (applyUpdate ["a", "b"] ⟨0, "z", true⟩))[0]? = some errorUnit ∧
    errorUnit ≠ emptyUnit ∧
    (∀ i, i ≠ 0 → (renderFrame (applyUpdate ["a", "b"] ⟨0, "z", true⟩))[i]? =
      (renderFrame ["a", "b"])[i]?) ∧
    (aggregatorRun ["a", "b"] (⟨0, "z", true⟩ :: [⟨1, "w", false⟩])).length =
      [(⟨1, "w", false⟩ : Update)].length + 1 :=
  error_report_shows_error_unit ["a", "b"] 0 "z" [⟨1, "w", false⟩] (by decide)

/-- C4: the aggregator renders exactly one frame per received report,
and the `i`-th frame is the render of the store after exactly the
first `i + 1` reports, in receipt order: no reordering, batching or
coalescing. -/
theorem one_frame_per_report_in_order (st : List String) (updates : List Update) :
    (aggregatorRun st updates).length = updates.length ∧
    ∀ i, i < updates.length →
      (aggregatorRun st updates)[i]? =
        some (renderFrame (List.foldl applyUpdate st (updates.take (i + 1)))) :=
  ⟨aggregatorRun_length updates st, fun i hi => aggregatorRun_getElem? updates st i hi⟩

/-- Witness for C4 at a concrete two-report run. -/
theorem one_frame_per_report_in_order_witness :
    (aggregatorRun ["a"] [⟨0, "b", false⟩, ⟨0, "c", false⟩])[1]? =
      some (renderFrame (List.foldl applyUpdate ["a"]
        (([⟨0, "b", false⟩, ⟨0, "c", false⟩] : List Update).take (1 + 1)))) :=
  (one_frame_per_report_in_order ["a"] [⟨0, "b", false⟩, ⟨0, "c", false⟩]).2 1
    (by decide)

/-- C5: before any report has arrived for slot `k`, element `k` of
every rendered frame is exactly the canonical empty unit
`\x7b"full_text":""\x7d`. -/
theorem slot_renders_empty_before_first_report (updates : List Update) (k : Nat)
    (hk : k < numSensors) (hno : ∀ u ∈ updates, u.place ≠ k) :
    ∀ f ∈ aggregatorRun (initState numSensors) updates, f[k]? = some emptyUnit := by
  intro f hf
  apply slot_stays_empty updates (initState numSensors) k ?_ hno f hf
  simp [initState, List.getElem?_replicate, hk]

/-- Witness for C5 at a concrete run that never reports for slot 1. -/
theorem slot_renders_empty_before_first_report_witness :
    (renderFrame (applyUpdate (initState numSensors) ⟨0, "a", false⟩))[1]? =
      some emptyUnit :=
  slot_renders_empty_before_first_report [⟨0, "a", false⟩] 1 (by decide) (by decide)
    _ (by decide)

/-- C6 counterexample: the inbound channel of `main` is created
unbuffered (`make(chan Update)`), so a sensor's send with no receiver
already waiting does not proceed — the sender waits on the consumer,
contradicting the claim that a send never waits on the consumer. -/
theorem inbound_send_waits_counterexample :
    goChanSendProceeds inboundChanCap 0 false = false := by decide

/-- C6 (amended): the inbound channel is unbuffered (capacity 0); a
sensor's send proceeds exactly when the aggregator is already waiting
at its receive, and blocks whenever it is not (for any queue state). -/
theorem inbound_channel_rendezvous (buffered : Nat) :
    inboundChanCap = 0 ∧
    goChanSendProceeds inboundChanCap buffered false = false ∧
    goChanSendProceeds inboundChanCap buffered true = true := by
  refine ⟨rfl, ?_, rfl⟩
  simp [goChanSendProceeds, inboundChanCap]

/-- C7: the memory sensor reports the parsed `MemAvailable` value
converted to gibibytes (divided by `1024 * 1024`) and formatted to two
decimal places; in particular `available = 2097152` kB renders as the
`2.00G` text. -/
theorem memory_reports_available_gib (total free a : ℚ) :
    memory total free a =
      simpleBlockJSON (Microchip ++ " " ++ fmtF 2 (a / (1024 * 1024)) ++ "G") ∧
    memory total free 2097152 = simpleBlockJSON (Microchip ++ " " ++ "2.00" ++ "G") := by
  constructor
  · rfl
  · rfl

/-! ### Helper lemmas for the volume sensor -/

theorem volRest_spec {ds cs : List Char} {v m : String}
    (h : volRest ds cs = some (v, m)) :
    v = String.mk ds ∧ ds ≠ [] ∧ (m = "on" ∨ m = "off") := by
  unfold volRest at h
  by_cases hds : ds.isEmpty
  · simp [hds] at h
  · rw [if_neg hds] at h
    have hne : ds ≠ [] := fun he => hds (by simp [he])
    split at h
    · split at h
      · split at h
        · simp only [Option.some.injEq, Prod.mk.injEq] at h
          exact ⟨h.1.symm, hne, Or.inl h.2.symm⟩
        · simp only [Option.some.injEq, Prod.mk.injEq] at h
          exact ⟨h.1.symm, hne, Or.inr h.2.symm⟩
        · exact absurd h (by simp)
      · exact absurd h (by simp)
    · exact absurd h (by simp)

theorem volMatchAt_spec {cs : List Char} {v m : String}
    (h : volMatchAt cs = some (v, m)) :
    (∃ ds : List Char, v = String.mk ds ∧ ds ≠ [] ∧ ds.length ≤ 3 ∧
      ∀ c ∈ ds, isDigitChar c = true) ∧ (m = "on" ∨ m = "off") := by
  unfold volMatchAt at h
  split at h
  next rest =>
    have hdig0 : ∀ c ∈ (rest.takeWhile isDigitChar).take 3, isDigitChar c = true :=
      fun c hc => List.mem_takeWhile_imp (List.mem_of_mem_take hc)
    have hlen0 : ((rest.takeWhile isDigitChar).take 3).length ≤ 3 :=
      List.length_take_le 3 _
    simp only at h
    split at h
    · next r hr =>
      obtain ⟨hv, hne, hm⟩ := volRest_spec hr
      cases h
      exact ⟨⟨_, hv, hne, hlen0, hdig0⟩, hm⟩
    · split at h
      · next r hr =>
        obtain ⟨hv, hne, hm⟩ := volRest_spec hr
        cases h
        refine ⟨⟨_, hv, hne, ?_, ?_⟩, hm⟩
        · have := List.length_dropLast ((rest.takeWhile isDigitChar).take 3)
          omega
        · exact fun c hc => hdig0 c (List.dropLast_subset _ hc)
      · split at h
        · next r hr =>
          obtain ⟨hv, hne, hm⟩ := volRest_spec hr
          cases h
          refine ⟨⟨_, hv, hne, ?_, ?_⟩, hm⟩
          · have h1 := List.length_dropLast ((rest.takeWhile isDigitChar).take 3)
            have h2 := List.length_dropLast
              (((rest.takeWhile isDigitChar).take 3).dropLast)
            omega
          · exact fun c hc =>
              hdig0 c (List.dropLast_subset _ (List.dropLast_subset _ hc))
        · exact absurd h (by simp)
  next => exact absurd h (by simp)

theorem volFind_spec : ∀ (cs : List Char) {v m : String},
    volFind cs = some (v, m) →
    (∃ ds : List Char, v = String.mk ds ∧ ds ≠ [] ∧ ds.length ≤ 3 ∧
      ∀ c ∈ ds, isDigitChar c = true) ∧ (m = "on" ∨ m = "off") := by
  intro cs
  induction cs with
  | nil => intro v m h; simp [volFind] at h
  | cons c rest ih =>
    intro v m h
    unfold volFind at h
    split at h
    · next r hr => cases h; exact volMatchAt_spec hr
    · exact ih h

theorem volFirstMatch_spec : ∀ (lines : List String) {v m : String},
    volFirstMatch lines = some (v, m) →
    (∃ ds : List Char, v = String.mk ds ∧ ds ≠ [] ∧ ds.length ≤ 3 ∧
      ∀ c ∈ ds, isDigitChar c = true) ∧ (m = "on" ∨ m = "off") := by
  intro lines
  induction lines with
  | nil => intro v m h; simp [volFirstMatch] at h
  | cons l ls ih =>
    intro v m h
    unfold volFirstMatch at h
    split at h
    · next r hr => cases h; exact volFind_spec l.data hr
    · exact ih h

theorem decVal_some_lt : ∀ (cs : List Char) (acc : Nat),
    (∀ c ∈ cs, isDigitChar c = true) →
    ∃ n, decVal cs acc = some n ∧ n < (acc + 1) * 10 ^ cs.length := by
  intro cs
  induction cs with
  | nil =>
    intro acc _
    exact ⟨acc, rfl, by simp⟩
  | cons c cs ih =>
    intro acc h
    have hc : isDigitChar c = true := h c (by simp)
    have hd : c.toNat - 48 ≤ 9 := by
      simp only [isDigitChar, Bool.and_eq_true, decide_eq_true_eq] at hc
      omega
    obtain ⟨n, hn, hlt⟩ := ih (acc * 10 + (c.toNat - 48))
      (fun x hx => h x (by simp [hx]))
    refine ⟨n, by simp [decVal, hc, hn], ?_⟩
    have h1 : acc * 10 + (c.toNat - 48) + 1 ≤ (acc + 1) * 10 := by omega
    have h2 : (acc * 10 + (c.toNat - 48) + 1) * 10 ^ cs.length ≤
        ((acc + 1) * 10) * 10 ^ cs.length := Nat.mul_le_mul_right _ h1
    have h3 : ((acc + 1) * 10) * 10 ^ cs.length = (acc + 1) * 10 ^ (cs.length + 1) := by
      rw [pow_succ]; ring
    simp only [List.length_cons]
    omega

theorem parseInt64_digits (ds : List Char) (hne : ds ≠ []) (hlen : ds.length ≤ 3)
    (hdig : ∀ c ∈ ds, isDigitChar c = true) :
    ∃ n : Int, parseInt64 (String.mk ds) = some n := by
  match ds, hne with
  | c :: cs, _ =>
    have hc := hdig c (by simp)
    have hc1 : ¬(c = '+') := by
      intro h
      rw [h] at hc
      exact absurd hc (by decide)
    have hc2 : ¬(c = '-') := by
      intro h
      rw [h] at hc
      exact absurd hc (by decide)
    obtain ⟨n, hn, hlt⟩ := decVal_some_lt (c :: cs) 0 hdig
    have hbound : n ≤ 9223372036854775807 := by
      have hp : (10 : Nat) ^ (c :: cs).length ≤ 10 ^ 3 :=
        Nat.pow_le_pow_right (by norm_num) hlen
      have h3 : (10 : Nat) ^ 3 = 1000 := by norm_num
      omega
    refine ⟨(n : Int), ?_⟩
    simp [parseInt64, hc1, hc2, hn, hbound]

/-- C8: whenever some line of the mixer output matches the volume
pattern, the sensor reports `<pct>%` from the captured digits, except
that a captured `off` mute flag replaces it by the muted indicator
`off`; in particular a `[75%] [off]` line reports `off`, not `75%`. -/
theorem volume_reports_pct_or_muted (lines : List String) (v m : String)
    (h : volFirstMatch lines = some (v, m)) :
    ∃ n : Int, parseInt64 v = some n ∧
      volume lines = some (simpleBlockJSON (VolumeUp ++ " " ++
        (if m = "off" then "off" else toString n ++ "%"))) := by
  obtain ⟨⟨ds, hv, hne, hlen, hdig⟩, -⟩ := volFirstMatch_spec lines h
  subst hv
  obtain ⟨n, hn⟩ := parseInt64_digits ds hne hlen hdig
  refine ⟨n, hn, ?_⟩
  by_cases hoff : m = "off"
  · simp [volume, h, hn, hoff]
  · simp [volume, h, hn, hoff]

/-- Witness for C8 at a muted mixer line. -/
theorem volume_reports_pct_or_muted_witness :
    ∃ n : Int, parseInt64 ("75") = some n ∧
      volume ["  Mono: Playback 26027 [75%] [off]"] =
        some (simpleBlockJSON (VolumeUp ++ " " ++
          (if ("off" : String) = "off" then "off" else toString n ++ "%"))) :=
  volume_reports_pct_or_muted ["  Mono: Playback 26027 [75%] [off]"] "75" "off"
    (by decide)

/-- C9: the battery sensor reports the `%.0f`-rounded percentage
`current/full*100`; exactly when `current ≠ full` it additionally
reports the estimated time-to-full `current/chargeRate` (as
reconstructed by the duration round-trip, `battDur`), printed as whole
hours with suffix `h` when above one hour and as whole minutes with
suffix `m` otherwise. -/
theorem battery_reports_pct_and_eta (c f r : ℚ) (hr : r ≠ 0)
    (hov : (roundHalfEven (c / r * 1000000) * 3600000).natAbs < 2 ^ 63) :
    (c = f → battery c f r =
      some (simpleBlockJSON (BatteryFull ++ " " ++ fmtF 0 (c / f * 100) ++ "%"))) ∧
    (c ≠ f → battery c f r =
      some (simpleBlockJSON (BatteryFull ++ " " ++ fmtF 0 (c / f * 100) ++ "%" ++
        " - " ++
        (if 1 < battDur (c / r) then toString (truncQ (battDur (c / r))) ++ "h"
         else toString (truncQ (battDur (c / r) * 60)) ++ "m")))) := by
  constructor
  · intro hcf
    simp [battery, hcf]
  · intro hcf
    have hov2 : (roundHalfEven (c / r * 1000000) * 3600000).natAbs <
        9223372036854775808 := by
      norm_num at hov
      exact hov
    have hle : ¬(9223372036854775808 ≤
        (roundHalfEven (c / r * 1000000) * 3600000).natAbs) :=
      Nat.not_le.mpr hov2
    simp [battery, hcf, hr, hle, battDur]

/-- Witness for C9 at a half-charged battery filling in one hour. -/
theorem battery_reports_pct_and_eta_witness :
    battery 1 2 1 =
      some (simpleBlockJSON (BatteryFull ++ " " ++ fmtF 0 ((1 : ℚ) / 2 * 100) ++ "%" ++
        " - " ++
        (if 1 < battDur ((1 : ℚ) / 1) then toString (truncQ (battDur ((1 : ℚ) / 1))) ++ "h"
         else toString (truncQ (battDur ((1 : ℚ) / 1) * 60)) ++ "m"))) :=
  (battery_reports_pct_and_eta 1 2 1 (by decide) (by decide)).2 (by decide)

/-! ### Helper lemmas for the frame-shape invariant -/

theorem simpleBlockJSON_shape (ft : String) :
    simpleBlockJSON ft = "\x7b\"full_text\":\"" ++ escapeString ft ++
      "\",\"separator\":true,\"separator_block_width\":20\x7d" := by
  show "\x7b\"full_text\":" ++ ("\"" ++ escapeString ft ++ "\"") ++ "" ++ "" ++ "" ++ ""
      ++ "" ++ "" ++ "" ++ "" ++ "" ++ ",\"separator\":true"
      ++ (",\"separator_block_width\":" ++ toString (20 : Int)) ++ "\x7d" = _
  rw [show toString (20 : Int) = "20" from rfl]
  simp only [String.append_empty, String.append_assoc]
  rw [show ("\"" : String) ++ (",\"separator\":true" ++ (",\"separator_block_width\":"
      ++ ("20" ++ "\x7d"))) =
    "\",\"separator\":true,\"separator_block_width\":20\x7d" from rfl]
  rw [← String.append_assoc]
  rfl

theorem sepUnitShape_simpleBlockJSON (ft : String) :
    sepUnitShape (simpleBlockJSON ft) :=
  ⟨escapeString ft, simpleBlockJSON_shape ft⟩

theorem sepUnitShape_errorUnit : sepUnitShape errorUnit :=
  ⟨" error", by decide⟩

theorem sepUnitShape_ne_empty {s : String} (h : sepUnitShape s) : ¬(s = "") := by
  obtain ⟨t, rfl⟩ := h
  intro h
  have hlen := congrArg String.length h
  rw [String.length_append, String.length_append] at hlen
  have h1 : ("\x7b\"full_text\":\"" : String).length = 14 := by decide
  have h2 :
      ("\",\"separator\":true,\"separator_block_width\":20\x7d" : String).length =
        46 := by decide
  have h3 : ("" : String).length = 0 := by decide
  omega

theorem volume_some_shape {ls : List String} {s : String}
    (h : volume ls = some s) : ∃ ft, s = simpleBlockJSON ft := by
  unfold volume at h
  dsimp only at h
  split at h
  · exact absurd h (by simp)
  · exact ⟨_, (Option.some.inj h).symm⟩

theorem battery_some_shape {c f r : ℚ} {s : String}
    (h : battery c f r = some s) : ∃ ft, s = simpleBlockJSON ft := by
  unfold battery at h
  dsimp only at h
  split at h
  · exact ⟨_, (Option.some.inj h).symm⟩
  · split at h
    · exact absurd h (by simp)
    · split at h
      · exact absurd h (by simp)
      · exact ⟨_, (Option.some.inj h).symm⟩

set_option maxHeartbeats 1600000 in
theorem sensor_output_shape {s : String} (h : IsSensorOutput s) :
    sepUnitShape s := by
  rcases h with ⟨t, f, a, rfl⟩ | ⟨ls, hv⟩ | ⟨c, rfl⟩ | ⟨c, f, r, hb⟩ | ⟨x, rfl⟩ |
      ⟨y, mo, d, h, mi, sec, rfl⟩
  · unfold memory
    exact sepUnitShape_simpleBlockJSON _
  · obtain ⟨ft, rfl⟩ := volume_some_shape hv
    exact sepUnitShape_simpleBlockJSON _
  · unfold temperature
    exact sepUnitShape_simpleBlockJSON _
  · obtain ⟨ft, rfl⟩ := battery_some_shape hb
    exact sepUnitShape_simpleBlockJSON _
  · unfold uptime
    exact sepUnitShape_simpleBlockJSON _
  · unfold datetime
    exact sepUnitShape_simpleBlockJSON _

theorem frames_shape : ∀ (us : List Update) (st : List String),
    (∀ x ∈ st, x = "" ∨ sepUnitShape x) →
    (∀ u ∈ us, u.error = false → IsSensorOutput u.content) →
    ∀ f ∈ aggregatorRun st us, ∀ s ∈ f, s = emptyUnit ∨ sepUnitShape s := by
  intro us
  induction us with
  | nil => intro st hst hu f hf; simp [aggregatorRun] at hf
  | cons u us ih =>
    intro st hst hu f hf
    have hv : (if u.error then errorUnit else u.content) = "" ∨
        sepUnitShape (if u.error then errorUnit else u.content) := by
      cases he : u.error with
      | true =>
        rw [if_pos rfl]
        exact Or.inr sepUnitShape_errorUnit
      | false =>
        rw [if_neg (by decide)]
        exact Or.inr (sensor_output_shape (hu u (by simp) he))
    have hst' : ∀ x ∈ applyUpdate st u, x = "" ∨ sepUnitShape x := by
      intro x hx
      rcases List.mem_or_eq_of_mem_set hx with hx | rfl
      · exact hst x hx
      · exact hv
    simp only [aggregatorRun, List.mem_cons] at hf
    rcases hf with rfl | hf
    · intro s hs
      obtain ⟨x, hx, rfl⟩ := List.mem_map.mp hs
      rcases hst' x hx with rfl | hsh
      · exact Or.inl (by simp [renderUnit])
      · right
        rwa [renderUnit, if_neg (sepUnitShape_ne_empty hsh)]
    · exact ih (applyUpdate st u) hst'
        (fun v hv' he => hu v (by simp [hv']) he) f hf

/-- C10: every element of every rendered frame is either exactly the
canonical empty unit or carries the common separator configuration —
a `full_text` followed by `"separator":true` and
`"separator_block_width":20` — as every sensor-produced unit and the
aggregator's fixed error unit do. -/
theorem every_frame_element_empty_or_separator (updates : List Update)
    (hu : ∀ u ∈ updates, u.error = false → IsSensorOutput u.content) :
    ∀ f ∈ aggregatorRun (initState numSensors) updates, ∀ s ∈ f,
      s = emptyUnit ∨ sepUnitShape s :=
  frames_shape updates (initState numSensors)
    (fun _x hx => Or.inl (List.eq_of_mem_replicate hx)) hu

/-- Witness for C10: the error unit rendered after an error report is
of the separator shape. -/
theorem every_frame_element_empty_or_separator_witness :
    errorUnit = emptyUnit ∨ sepUnitShape errorUnit :=
  every_frame_element_empty_or_separator [⟨0, "", true⟩]
    (by intro u hu hf; simp only [List.mem_singleton] at hu; subst hu; simp at hf)
    (renderFrame (applyUpdate (initState numSensors) ⟨0, "", true⟩)) (by decide)
    errorUnit (by decide)
